import Mathlib

/-!
# Verification of the Navigation Brain (GAI repository)

A shallow embedding, in Lean 4, of the core of the Navigation Brain:
the state hasher (`src/brain/utils/StateHasher.ts`), the JSON graph
storage (`src/brain/storage/JSONStorage.ts`), the brain types
(`src/brain/types.ts`), the mouse/keyboard controller
(`src/utils/automation/KeyboardController.ts`) and the brain controller
(`NavigationBrain.ts`).

Modelling conventions:
* JavaScript numbers holding pixel coordinates and counters are embedded
  as `Int`/`Nat`; fractional quantities (confidence, success rate) as `ℚ`.
* `Date` values are embedded as their millisecond epoch value (`Int`);
  `Date.prototype.toISOString` and `new Date(isoString)` are embedded by
  executable calendar conversions (`isoOfMs`, `msOfIso`).
* `String.prototype.localeCompare` is embedded as the sign of the
  lexicographic comparison of the two strings (a fixed, consistent
  comparator, which is all the sorting relies on).
* JavaScript's stable `Array.prototype.sort` with a consistent comparator
  is embedded as `List.insertionSort` on the non-strict relation of the
  comparator: Mathlib's insertion sort inserts earlier elements before
  later tied ones, which is exactly the stable behaviour.
* I/O (screen capture, OCR, the vision model, UUIDs) is embedded as an
  environment of oracle streams consumed in call order; the file writes
  performed by `JSONStorage.save` are collected in an explicit trace.
-/

set_option maxRecDepth 100000

namespace GAI

/-! ## Small string utilities (JS `toLowerCase`, `trim`, `includes`) -/

/-- ASCII lower-casing of one character, embedding the effect of
`String.prototype.toLowerCase` on the ASCII strings this code handles. -/
def jsLowerChar (c : Char) : Char :=
  if 'A' ≤ c ∧ c ≤ 'Z' then Char.ofNat (c.toNat + 32) else c

/-- Embedding of `s.toLowerCase()`. -/
def jsToLower (s : String) : String :=
  String.mk (s.data.map jsLowerChar)

/-- Embedding of `s.trim()` (whitespace stripped from both ends). -/
def jsTrim (s : String) : String :=
  String.mk (((s.data.dropWhile Char.isWhitespace).reverse.dropWhile
    Char.isWhitespace).reverse)

/-- Does `hay` start with `needle`? (helper for `jsIncludes`). -/
def startsWithSeq : List Char → List Char → Bool
  | _, [] => true
  | [], _ :: _ => false
  | c :: cs, d :: ds => c == d && startsWithSeq cs ds

/-- Does `hay` contain `needle` as a contiguous subsequence? -/
def containsSeq : List Char → List Char → Bool
  | hay, needle =>
    startsWithSeq hay needle ||
      (match hay with
       | [] => false
       | _ :: t => containsSeq t needle)

/-- Embedding of JavaScript `hay.includes(needle)`. -/
def jsIncludes (hay needle : String) : Bool :=
  containsSeq hay.data needle.data

/-- Embedding of JavaScript string interpolation of an integer. -/
def intStr (i : Int) : String := toString i

/-! ## UTF-8 and SHA-256 (node `crypto.createHash('sha256')`) -/

/-- UTF-8 encoding of one code point. -/
def utf8Char (c : Char) : List Nat :=
  let n := c.toNat
  if n < 128 then [n]
  else if n < 2048 then [192 + n / 64, 128 + n % 64]
  else if n < 65536 then [224 + n / 4096, 128 + (n / 64) % 64, 128 + n % 64]
  else [240 + n / 262144, 128 + (n / 4096) % 64, 128 + (n / 64) % 64, 128 + n % 64]

/-- UTF-8 bytes of a string. -/
def utf8Bytes (s : String) : List Nat :=
  (s.data.map utf8Char).flatten

/-- Truncation to 32 bits. -/
def m32 (n : Nat) : Nat := n % 4294967296

/-- 32-bit right rotation. -/
def rotr (k n : Nat) : Nat := (n >>> k) ||| m32 (n <<< (32 - k))

def shaCh (e f g : Nat) : Nat := (e &&& f) ^^^ ((e ^^^ 4294967295) &&& g)
def shaMaj (a b c : Nat) : Nat := (a &&& b) ^^^ (a &&& c) ^^^ (b &&& c)
def bigS0 (n : Nat) : Nat := rotr 2 n ^^^ rotr 13 n ^^^ rotr 22 n
def bigS1 (n : Nat) : Nat := rotr 6 n ^^^ rotr 11 n ^^^ rotr 25 n
def smallS0 (n : Nat) : Nat := rotr 7 n ^^^ rotr 18 n ^^^ (n >>> 3)
def smallS1 (n : Nat) : Nat := rotr 17 n ^^^ rotr 19 n ^^^ (n >>> 10)

/-- The 64 SHA-256 round constants. -/
def shaK : List Nat :=
  [1116352408, 1899447441, 3049323471, 3921009573, 961987163, 1508970993,
   2453635748, 2870763221, 3624381080, 310598401, 607225278, 1426881987,
   1925078388, 2162078206, 2614888103, 3248222580, 3835390401, 4022224774,
   264347078, 604807628, 770255983, 1249150122, 1555081692, 1996064986,
   2554220882, 2821834349, 2952996808, 3210313671, 3336571891, 3584528711,
   113926993, 338241895, 666307205, 773529912, 1294757372, 1396182291,
   1695183700, 1986661051, 2177026350, 2456956037, 2730485921, 2820302411,
   3259730800, 3345764771, 3516065817, 3600352804, 4094571909, 275423344,
   430227734, 506948616, 659060556, 883997877, 958139571, 1322822218,
   1537002063, 1747873779, 1955562222, 2024104815, 2227730452, 2361852424,
   2428436474, 2756734187, 3204031479, 3329325298]

/-- SHA-256 initial hash value. -/
def shaH0 : List Nat :=
  [1779033703, 3144134277, 1013904242, 2773480762, 1359893119, 2600822924,
   528734635, 1541459225]

/-- Big-endian 8-byte encoding of a length. -/
def be8 (n : Nat) : List Nat :=
  [n >>> 56 % 256, n >>> 48 % 256, n >>> 40 % 256, n >>> 32 % 256,
   n >>> 24 % 256, n >>> 16 % 256, n >>> 8 % 256, n % 256]

/-- SHA-256 padding. -/
def shaPad (msg : List Nat) : List Nat :=
  let z := (64 - (msg.length + 9) % 64) % 64
  msg ++ 128 :: List.replicate z 0 ++ be8 (8 * msg.length)

/-- Group bytes into big-endian 32-bit words. -/
def toWords : List Nat → List Nat
  | b1 :: b2 :: b3 :: b4 :: rest =>
      (b1 * 16777216 + b2 * 65536 + b3 * 256 + b4) :: toWords rest
  | _ => []

/-- Extend a 16-word block by `k` schedule words. -/
def extendW : Nat → List Nat → List Nat
  | 0, w => w
  | k + 1, w =>
      let n := w.length
      extendW k (w ++ [m32 (smallS1 (w.getD (n - 2) 0) + w.getD (n - 7) 0 +
        smallS0 (w.getD (n - 15) 0) + w.getD (n - 16) 0)])

/-- Working state of the SHA-256 compression function. -/
structure Sha8 where
  a : Nat
  b : Nat
  c : Nat
  d : Nat
  e : Nat
  f : Nat
  g : Nat
  h : Nat
deriving DecidableEq

def sha8OfList : List Nat → Sha8
  | [a, b, c, d, e, f, g, h] => ⟨a, b, c, d, e, f, g, h⟩
  | _ => ⟨0, 0, 0, 0, 0, 0, 0, 0⟩

def shaRound (s : Sha8) (kw : Nat × Nat) : Sha8 :=
  let t1 := m32 (s.h + bigS1 s.e + shaCh s.e s.f s.g + kw.1 + kw.2)
  let t2 := m32 (bigS0 s.a + shaMaj s.a s.b s.c)
  ⟨m32 (t1 + t2), s.a, s.b, s.c, m32 (s.d + t1), s.e, s.f, s.g⟩

def compressBlock (h : List Nat) (block : List Nat) : List Nat :=
  let w := extendW 48 block
  let s0 := sha8OfList h
  let s := (shaK.zip w).foldl shaRound s0
  [m32 (s0.a + s.a), m32 (s0.b + s.b), m32 (s0.c + s.c), m32 (s0.d + s.d),
   m32 (s0.e + s.e), m32 (s0.f + s.f), m32 (s0.g + s.g), m32 (s0.h + s.h)]

/-- SHA-256 digest (32 bytes) of a byte list. -/
def sha256 (msg : List Nat) : List Nat :=
  let blocks := (toWords (shaPad msg)).toChunks 16
  let hfin := blocks.foldl compressBlock shaH0
  (hfin.map (fun w => [w >>> 24 % 256, w >>> 16 % 256, w >>> 8 % 256, w % 256])).flatten

def hexChar (n : Nat) : Char :=
  if n < 10 then Char.ofNat (48 + n) else Char.ofNat (87 + n)

/-- Lowercase hex characters of a byte list (node's `digest('hex')`). -/
def hexOfBytes (bs : List Nat) : List Char :=
  bs.foldr (fun b acc => hexChar (b / 16) :: hexChar (b % 16) :: acc) []

/-- `createHash('sha256').update(s).digest('hex').substring(0, 16)`:
the first 16 hex characters of the SHA-256 of the UTF-8 bytes of `s`. -/
def sha256Hex16 (s : String) : String :=
  String.mk ((hexOfBytes (sha256 (utf8Bytes s))).take 16)

/-! ## Executable rational arithmetic

Mathlib's field operations on `ℚ` do not reduce inside the kernel, so the
embedding implements the source's fractional arithmetic by explicit
numerator/denominator formulas over `Rat.divInt` (which does reduce).
The theorems `qAdd_eq`, `qSub_eq`, `qMul_eq` and `qDiv_eq` below prove
them equal to `+`, `-`, `*` and `/` on `ℚ`, so statements about the
embedding read as ordinary rational arithmetic. -/

def qAdd (a b : Rat) : Rat :=
  Rat.divInt (a.num * b.den + b.num * a.den) (a.den * b.den)

def qSub (a b : Rat) : Rat :=
  Rat.divInt (a.num * b.den - b.num * a.den) (a.den * b.den)

def qMul (a b : Rat) : Rat :=
  Rat.divInt (a.num * b.num) (a.den * b.den)

def qDiv (a b : Rat) : Rat :=
  Rat.divInt (a.num * b.den) (a.den * b.num)

/-! ## State hasher (`src/brain/utils/StateHasher.ts`) -/

/-- A pixel bounding box (`BoundingBox` of `core/types`): the `position`
of a `UIElement`, in screen pixels. -/
structure BBox where
  x : Int
  y : Int
  width : Int
  height : Int
deriving DecidableEq

/-- `UIElement` of `src/brain/types.ts`.  The `type` field is one of the
string literals `button | input | text | image | link | menu | other`;
it is embedded as the string itself. -/
structure UIElement where
  type : String
  text : Option String
  position : Option BBox
  confidence : Option Rat
deriving DecidableEq

/-- The normalized form of one element built at the top of
`StateHasher.hashElements`: `type`, lower-cased trimmed text (empty for a
missing or empty text), and the position with every component floored to
a multiple of 10 (or `none`). -/
structure NormEl where
  type : String
  text : String
  position : Option BBox
deriving DecidableEq

/-- `Math.floor(v / 10) * 10` on a pixel value. -/
def quant10 (v : Int) : Int := v.fdiv 10 * 10

/-- The `.map` step of `hashElements`: normalization of one element.
`element.text?.toLowerCase().trim() || ''` yields `''` both for a missing
text and for a text that trims to the empty string. -/
def normalizeEl (e : UIElement) : NormEl :=
  { type := e.type
    text := (e.text.map (fun t => jsTrim (jsToLower t))).getD ""
    position := e.position.map (fun p =>
      ⟨quant10 p.x, quant10 p.y, quant10 p.width, quant10 p.height⟩) }

/-- Character-wise lexicographic comparison (by code point). -/
def cmpChars : List Char → List Char → Int
  | [], [] => 0
  | [], _ :: _ => -1
  | _ :: _, [] => 1
  | c :: cs, d :: ds =>
      if c.toNat < d.toNat then -1
      else if d.toNat < c.toNat then 1
      else cmpChars cs ds

/-- Sign of `localeCompare`, embedded as lexicographic string comparison
(consistent comparator; see the header notes). -/
def cmpStr (s t : String) : Int :=
  cmpChars s.data t.data

/-- `a.position.x - b.position.x || a.position.y - b.position.y`
(JavaScript `||` yields the second operand when the first is `0`). -/
def cmpPos (p q : BBox) : Int :=
  if p.x - q.x ≠ 0 then p.x - q.x else p.y - q.y

/-- The `.sort` comparator of `hashElements`: by `type`, then `text`,
then position (`none` before `some`, then by `x`, then `y`). -/
def cmpNorm (a b : NormEl) : Int :=
  if a.type ≠ b.type then cmpStr a.type b.type
  else if a.text ≠ b.text then cmpStr a.text b.text
  else
    match a.position, b.position with
    | none, none => 0
    | none, some _ => -1
    | some _, none => 1
    | some p, some q => cmpPos p q

/-- The non-strict order underlying the comparator. -/
def leNorm (a b : NormEl) : Prop := cmpNorm a b ≤ 0

instance : DecidableRel leNorm := fun a b => Int.decLe (cmpNorm a b) 0

/-- The string representation of one normalized element:
`"<type>:<text>:<x,y,w,h or none>"`. -/
def reprEl (n : NormEl) : String :=
  n.type ++ ":" ++ n.text ++ ":" ++
    (match n.position with
     | some p =>
         intStr p.x ++ "," ++ intStr p.y ++ "," ++ intStr p.width ++ "," ++
           intStr p.height
     | none => "none")

/-- `StateHasher.hashElements`: normalize, stable-sort by the comparator,
join the representations with `|`, SHA-256, first 16 hex characters. -/
def hashElements (elements : List UIElement) : String :=
  let normalized := List.insertionSort leNorm (elements.map normalizeEl)
  let representation := String.intercalate "|" (normalized.map reprEl)
  sha256Hex16 representation

/-! ## Dates: `Date.prototype.toISOString` and `new Date(iso)` -/

/-- Proleolithic Gregorian civil date from days since the epoch
(the standard era-based algorithm). -/
def civilFromDays (day : Int) : Int × Int × Int :=
  let z := day + 719468
  let era := z.fdiv 146097
  let doe := z - era * 146097
  let yoe := (doe - doe.fdiv 1460 + doe.fdiv 36524 - doe.fdiv 146096).fdiv 365
  let y := yoe + era * 400
  let doy := doe - (365 * yoe + yoe.fdiv 4 - yoe.fdiv 100)
  let mp := (5 * doy + 2).fdiv 153
  let d := doy - (153 * mp + 2).fdiv 5 + 1
  let m := mp + (if mp < 10 then 3 else -9)
  (y + (if m ≤ 2 then 1 else 0), m, d)

/-- Days since the epoch from a civil date (inverse of `civilFromDays`). -/
def daysFromCivil (y m d : Int) : Int :=
  let y := y - (if m ≤ 2 then 1 else 0)
  let era := y.fdiv 400
  let yoe := y - era * 400
  let mp := m + (if m > 2 then -3 else 9)
  let doy := (153 * mp + 2).fdiv 5 + d - 1
  let doe := yoe * 365 + yoe.fdiv 4 - yoe.fdiv 100 + doy
  era * 146097 + doe - 719468

/-- Zero-padded decimal rendering of a (non-negative) number. -/
def padNum (width : Nat) (n : Int) : String :=
  let s := intStr n
  String.mk (List.replicate (width - s.length) '0' ++ s.data)

/-- `Date.prototype.toISOString` on a millisecond epoch value. -/
def isoOfMs (ms : Int) : String :=
  let day := ms.fdiv 86400000
  let tod := ms - day * 86400000
  let ymd := civilFromDays day
  padNum 4 ymd.1 ++ "-" ++ padNum 2 ymd.2.1 ++ "-" ++ padNum 2 ymd.2.2 ++ "T" ++
    padNum 2 (tod.fdiv 3600000) ++ ":" ++ padNum 2 (tod.fdiv 60000 % 60) ++ ":" ++
    padNum 2 (tod.fdiv 1000 % 60) ++ "." ++ padNum 3 (tod % 1000) ++ "Z"

def digitsToNat (l : List Char) : Nat :=
  l.foldl (fun acc c => 10 * acc + (c.toNat - 48)) 0

/-- `new Date(isoString).getTime()` for a well-formed
`YYYY-MM-DDTHH:MM:SS.mmmZ` string. -/
def msOfIso (s : String) : Int :=
  let l := s.data
  daysFromCivil (digitsToNat (l.take 4)) (digitsToNat ((l.drop 5).take 2))
      (digitsToNat ((l.drop 8).take 2)) * 86400000 +
    digitsToNat ((l.drop 11).take 2) * 3600000 +
    digitsToNat ((l.drop 14).take 2) * 60000 +
    digitsToNat ((l.drop 17).take 2) * 1000 +
    digitsToNat ((l.drop 20).take 3)

/-! ## Brain types (`src/brain/types.ts`) -/

/-- `NodeId`: identity of a node in the navigation graph. -/
structure NodeId where
  programName : String
  stateHash : String
deriving DecidableEq

/-- `nodeIdToKey`. -/
def nodeIdToKey (nodeId : NodeId) : String :=
  nodeId.programName ++ "::" ++ nodeId.stateHash

/-- JavaScript `key.split('::')`: greedy left-to-right split on each
non-overlapping occurrence of the two-character separator. -/
def jsSplit2 : List Char → List (List Char)
  | [] => [[]]
  | ':' :: ':' :: rest => [] :: jsSplit2 rest
  | c :: rest =>
      match jsSplit2 rest with
      | h :: t => (c :: h) :: t
      | [] => [[c]]

/-- The result of `keyToNodeId`: destructuring
`const [programName, stateHash] = key.split('::')` leaves `stateHash`
`undefined` (here `none`) when the split has fewer than two parts. -/
structure NodeIdParts where
  programName : String
  stateHash : Option String
deriving DecidableEq

/-- `keyToNodeId`. -/
def keyToNodeId (key : String) : NodeIdParts :=
  match jsSplit2 key.data with
  | pn :: sh :: _ => ⟨String.mk pn, some (String.mk sh)⟩
  | [pn] => ⟨String.mk pn, none⟩
  | [] => ⟨"", none⟩

/-- `Node.metadata`. -/
structure NodeMeta where
  title : Option String
  screenshot : Option String
  uiElements : List UIElement
  description : Option String
  createdAt : Int
  lastVisitedAt : Int
  visitCount : Nat
deriving DecidableEq

/-- `Node` of the navigation graph. -/
structure Node where
  id : NodeId
  metadata : NodeMeta
  childrenIds : List NodeId
deriving DecidableEq

inductive MouseButton
  | left
  | right
  | middle
deriving DecidableEq

inductive ScrollDir
  | up
  | down
deriving DecidableEq

inductive Modifier
  | command
  | ctrl
  | alt
  | shift
deriving DecidableEq

/-- `HotkeyAction.key : string | string[]`. -/
inductive KeyV
  | one (key : String)
  | many (keys : List String)
deriving DecidableEq

/-- `ActionData`: the tagged union of action payloads. -/
inductive ActionData
  | click (x y : Option Int) (text : Option String) (button : Option MouseButton)
      (doubleClick : Option Bool)
  | type (text : String) (pressEnter : Option Bool) (delay : Option Int)
  | hotkey (key : KeyV) (modifiers : Option (List Modifier))
  | wait (milliseconds : Int)
  | scroll (amount : Int) (direction : ScrollDir)
  | spotlight (query : String) (pressEnter : Option Bool)
deriving DecidableEq

/-- `Action` with metadata. -/
structure Action where
  id : String
  data : ActionData
  description : Option String
  retryOnFailure : Option Bool
deriving DecidableEq

/-- An in-memory timestamp value.  The source declares these fields as
`Date`, but a decoded graph actually holds the raw ISO string in
`verificationHistory` (see `loadGraph`), so the embedding keeps the
runtime distinction explicit. -/
inductive TVal
  | date (ms : Int)
  | str (s : String)
deriving DecidableEq

structure OCRInfo where
  fullText : String
  elementsFound : Nat
deriving DecidableEq

/-- The result of `verifyScreenState`.  The source field `match` is
spelled `matched` here (`match` is reserved in Lean). -/
structure VlmVerify where
  matched : Bool
  confidence : Rat
  reason : String
deriving DecidableEq

/-- `PathVerification`: appended once per executed action. -/
structure PathVerification where
  timestamp : TVal
  success : Bool
  actionIndex : Nat
  ocrResult : Option OCRInfo
  vlmResult : Option VlmVerify
  failureReason : Option String
deriving DecidableEq

structure Validation where
  expectedElements : List UIElement
  expectedText : Option (List String)
  timeout : Option Int
deriving DecidableEq

inductive LearnedBy
  | vlm
  | manual
  | recorded
deriving DecidableEq

structure PathMeta where
  successRate : Rat
  lastUsed : Int
  usageCount : Nat
  averageDuration : Rat
  learnedBy : LearnedBy
deriving DecidableEq

/-- `Path` between two nodes. -/
structure Path where
  id : String
  fromNodeId : NodeId
  toNodeId : NodeId
  actions : List Action
  validation : Validation
  verificationHistory : Option (List PathVerification)
  metadata : PathMeta
deriving DecidableEq

/-- OCR element (`OCRResult` of `core/types`, as used by the brain). -/
structure OCRElement where
  text : String
  confidence : Rat
  bbox : Option BBox
deriving DecidableEq

/-- `OCRAnalysis` as consumed by the brain (`fullText` + `elements`). -/
structure OCRAnalysis where
  fullText : String
  elements : List OCRElement
deriving DecidableEq

/-- `ShadowDOM`: the runtime-only snapshot of the current screen. -/
structure ShadowDOM where
  nodeId : NodeId
  capturedAt : Int
  screenshot : String
  uiElements : List UIElement
  ocrResult : Option OCRAnalysis
  vlmDescription : String
  instanceHash : String
deriving DecidableEq

/-- The in-memory `NavigationGraph`.  JavaScript `Map`s keep insertion
order; they are embedded as association lists. -/
structure NavigationGraph where
  nodes : List (String × Node)
  edges : List (String × List Path)
  currentNodeId : Option NodeId
  version : String
  createdAt : Int
  updatedAt : Int
deriving DecidableEq


/-! ## Serialized graph (`SerializableNavigationGraph`) and
`JSONStorage.save` / `JSONStorage.load` -/

structure SNodeMeta where
  title : Option String
  screenshot : Option String
  uiElements : List UIElement
  description : Option String
  createdAt : String
  lastVisitedAt : String
  visitCount : Nat
deriving DecidableEq

structure SNode where
  id : NodeId
  metadata : SNodeMeta
  childrenIds : List NodeId
deriving DecidableEq

structure SPathVerification where
  timestamp : String
  success : Bool
  actionIndex : Nat
  ocrResult : Option OCRInfo
  vlmResult : Option VlmVerify
  failureReason : Option String
deriving DecidableEq

structure SPathMeta where
  successRate : Rat
  lastUsed : String
  usageCount : Nat
  averageDuration : Rat
  learnedBy : LearnedBy
deriving DecidableEq

structure SPath where
  id : String
  fromNodeId : NodeId
  toNodeId : NodeId
  actions : List Action
  validation : Validation
  verificationHistory : Option (List SPathVerification)
  metadata : SPathMeta
deriving DecidableEq

/-- The on-disk JSON document. -/
structure SNavigationGraph where
  nodes : List (String × SNode)
  edges : List (String × List SPath)
  currentNodeId : Option NodeId
  version : String
  createdAt : String
  updatedAt : String
deriving DecidableEq

def encodeNode (n : Node) : SNode :=
  { id := n.id
    metadata :=
      { title := n.metadata.title
        screenshot := n.metadata.screenshot
        uiElements := n.metadata.uiElements
        description := n.metadata.description
        createdAt := isoOfMs n.metadata.createdAt
        lastVisitedAt := isoOfMs n.metadata.lastVisitedAt
        visitCount := n.metadata.visitCount }
    childrenIds := n.childrenIds }

/-- `save` spreads `...path` without touching `verificationHistory`;
`JSON.stringify` then serializes a `Date` through `toJSON`
(= `toISOString`) and a string as itself. -/
def encodeVerification (v : PathVerification) : SPathVerification :=
  { timestamp :=
      match v.timestamp with
      | .date ms => isoOfMs ms
      | .str s => s
    success := v.success
    actionIndex := v.actionIndex
    ocrResult := v.ocrResult
    vlmResult := v.vlmResult
    failureReason := v.failureReason }

def encodePath (p : Path) : SPath :=
  { id := p.id
    fromNodeId := p.fromNodeId
    toNodeId := p.toNodeId
    actions := p.actions
    validation := p.validation
    verificationHistory := p.verificationHistory.map (List.map encodeVerification)
    metadata :=
      { successRate := p.metadata.successRate
        lastUsed := isoOfMs p.metadata.lastUsed
        usageCount := p.metadata.usageCount
        averageDuration := p.metadata.averageDuration
        learnedBy := p.metadata.learnedBy } }

/-- The serialization step of `JSONStorage.save` (the document written to
disk), for a graph whose `updatedAt` has already been stamped. -/
def encodeGraph (g : NavigationGraph) : SNavigationGraph :=
  { nodes := g.nodes.map (fun kn => (kn.1, encodeNode kn.2))
    edges := g.edges.map (fun kp => (kp.1, kp.2.map encodePath))
    currentNodeId := g.currentNodeId
    version := g.version
    createdAt := isoOfMs g.createdAt
    updatedAt := isoOfMs g.updatedAt }

def decodeNode (sn : SNode) : Node :=
  { id := sn.id
    metadata :=
      { title := sn.metadata.title
        screenshot := sn.metadata.screenshot
        uiElements := sn.metadata.uiElements
        description := sn.metadata.description
        createdAt := msOfIso sn.metadata.createdAt
        lastVisitedAt := msOfIso sn.metadata.lastVisitedAt
        visitCount := sn.metadata.visitCount }
    childrenIds := sn.childrenIds }

/-- `load` converts `metadata.lastUsed` back with `new Date(...)` but
spreads `...path` otherwise, so the parsed `verificationHistory`
timestamps remain the raw ISO strings. -/
def decodePath (sp : SPath) : Path :=
  { id := sp.id
    fromNodeId := sp.fromNodeId
    toNodeId := sp.toNodeId
    actions := sp.actions
    validation := sp.validation
    verificationHistory :=
      sp.verificationHistory.map (List.map (fun sv =>
        { timestamp := TVal.str sv.timestamp
          success := sv.success
          actionIndex := sv.actionIndex
          ocrResult := sv.ocrResult
          vlmResult := sv.vlmResult
          failureReason := sv.failureReason }))
    metadata :=
      { successRate := sp.metadata.successRate
        lastUsed := msOfIso sp.metadata.lastUsed
        usageCount := sp.metadata.usageCount
        averageDuration := sp.metadata.averageDuration
        learnedBy := sp.metadata.learnedBy } }

/-- The deserialization step of `JSONStorage.load` on a parsed document. -/
def decodeGraph (sg : SNavigationGraph) : NavigationGraph :=
  { nodes := sg.nodes.map (fun kn => (kn.1, decodeNode kn.2))
    edges := sg.edges.map (fun kp => (kp.1, kp.2.map decodePath))
    currentNodeId := sg.currentNodeId
    version := sg.version
    createdAt := msOfIso sg.createdAt
    updatedAt := msOfIso sg.updatedAt }

/-! ## Storage mutations (`JSONStorage`) as pure graph transformers -/

/-- JavaScript `Map.prototype.set` on an insertion-ordered map: replace
the value at an existing key in place, otherwise append. -/
def listSet {β : Type} (k : String) (v : β) : List (String × β) → List (String × β)
  | [] => [(k, v)]
  | kv :: rest => if kv.1 = k then (k, v) :: rest else kv :: listSet k v rest

/-- `Map.prototype.get`. -/
def listGet {β : Type} (k : String) : List (String × β) → Option β
  | [] => none
  | kv :: rest => if kv.1 = k then some kv.2 else listGet k rest

/-- `JSONStorage.addPath` on the in-memory graph: find the first path
with the same `id` or the same destination key; replace it, else append. -/
def addPathJS (g : NavigationGraph) (path : Path) : NavigationGraph :=
  let fromKey := nodeIdToKey path.fromNodeId
  let paths := (listGet fromKey g.edges).getD []
  let paths' :=
    match paths.findIdx? (fun p =>
      p.id == path.id || nodeIdToKey p.toNodeId == nodeIdToKey path.toNodeId) with
    | some i => paths.set i path
    | none => paths ++ [path]
  { g with edges := listSet fromKey paths' g.edges }

/-- `JSONStorage.addNode` on the in-memory graph. -/
def addNodeJS (g : NavigationGraph) (node : Node) : NavigationGraph :=
  { g with nodes := listSet (nodeIdToKey node.id) node g.nodes }

/-- `JSONStorage.createEmptyGraph` (with the embedded constant clock). -/
def createEmptyGraph (now : Int) : NavigationGraph :=
  { nodes := []
    edges := []
    currentNodeId := none
    version := "1.0.0"
    createdAt := now
    updatedAt := now }

/-! ## Mouse / keyboard controllers
(`src/utils/automation/KeyboardController.ts`): the OS input subsystem is
embedded as a trace of emitted events. -/

inductive SysEvent
  | clickAt (x y : Int) (button : MouseButton) (double : Bool)
  | clickBBoxCenter (bbox : BBox) (button : MouseButton) (double : Bool)
  | typeText (text : String)
  | pressKey (key : KeyV) (modifiers : List Modifier)
  | pressEnter
  | scrollDown (lines : Nat)
  | scrollUp (lines : Nat)
deriving DecidableEq

/-- `MouseController.scroll(amount, direction)`:
`const scrollAmount = direction === 'down' ? -amount : amount;
mouse.scrollDown(Math.abs(scrollAmount));` -/
def scroll (amount : Int) (direction : ScrollDir) : SysEvent :=
  let scrollAmount := if direction = ScrollDir.down then -amount else amount
  SysEvent.scrollDown scrollAmount.natAbs


/-! ## The Navigation Brain (`NavigationBrain.ts`)

The brain's I/O is embedded as an environment of oracle streams consumed
in call order, and its mutable state (the graph shared with the storage
cache, the ShadowDOM, the file-write trace and the event trace) as an
explicit state record.  `new Date()` / `Date.now()` are embedded as a
constant clock `0` (no claim below depends on wall-clock values). -/

/-- Oracle streams for the brain's external dependencies: the `n`-th call
of a dependency returns the `n`-th value of its stream. -/
structure Env where
  screenshots : Nat → String
  ocrSupported : Bool
  ocrAvailable : Bool
  ocr : Nat → Option OCRAnalysis
  programName : Nat → String
  identify : Nat → List UIElement × String
  learn : Nat → List (ActionData × String) × Rat
  verify : Nat → VlmVerify
  uuid : Nat → String

/-- The brain's mutable state.  `graph` models both `NavigationBrain.graph`
and `JSONStorage.graph`, which alias the same object after `load`. -/
structure BrainSt where
  graph : Option NavigationGraph
  shadowDOM : Option ShadowDOM
  writes : List SNavigationGraph
  events : List SysEvent
  nCapture : Nat
  nOcr : Nat
  nProg : Nat
  nIdent : Nat
  nLearn : Nat
  nVerify : Nat
  nUuid : Nat
deriving DecidableEq

/-- A fresh brain over a fresh filesystem. -/
def st0 : BrainSt :=
  { graph := none, shadowDOM := none, writes := [], events := []
    nCapture := 0, nOcr := 0, nProg := 0, nIdent := 0, nLearn := 0
    nVerify := 0, nUuid := 0 }

def takeCapture (env : Env) (s : BrainSt) : String × BrainSt :=
  (env.screenshots s.nCapture, { s with nCapture := s.nCapture + 1 })

/-- The guarded OCR attempt of `identifyCurrentNode` / `updateShadowDOM` /
`learnPath`: only when `OCRFactory.isSupported()` and `create()` returns a
provider; a throwing `analyzeBuffer` (stream value `none`) is swallowed. -/
def tryOcr (env : Env) (s : BrainSt) : Option OCRAnalysis × BrainSt :=
  if env.ocrSupported then
    if env.ocrAvailable then
      (env.ocr s.nOcr, { s with nOcr := s.nOcr + 1 })
    else (none, s)
  else (none, s)

def getProgramName (env : Env) (s : BrainSt) : String × BrainSt :=
  (env.programName s.nProg, { s with nProg := s.nProg + 1 })

def getIdentify (env : Env) (s : BrainSt) : (List UIElement × String) × BrainSt :=
  (env.identify s.nIdent, { s with nIdent := s.nIdent + 1 })

def getLearn (env : Env) (s : BrainSt) :
    (List (ActionData × String) × Rat) × BrainSt :=
  (env.learn s.nLearn, { s with nLearn := s.nLearn + 1 })

def getVerify (env : Env) (s : BrainSt) : VlmVerify × BrainSt :=
  (env.verify s.nVerify, { s with nVerify := s.nVerify + 1 })

def getUuid (env : Env) (s : BrainSt) : String × BrainSt :=
  (env.uuid s.nUuid, { s with nUuid := s.nUuid + 1 })

def pushEvent (e : SysEvent) (s : BrainSt) : BrainSt :=
  { s with events := s.events ++ [e] }

/-- `JSONStorage.save`: stamp `updatedAt`, cache the graph, and write the
serialized document. -/
def saveToStorage (g : NavigationGraph) (s : BrainSt) : BrainSt :=
  let g1 := { g with updatedAt := 0 }
  { s with graph := some g1, writes := s.writes ++ [encodeGraph g1] }

/-- `JSONStorage.load`: return the cached graph, creating (and saving) an
empty one over a fresh filesystem. -/
def storageLoad (s : BrainSt) : NavigationGraph × BrainSt :=
  match s.graph with
  | some g => (g, s)
  | none =>
      let g := createEmptyGraph 0
      (g, saveToStorage g s)

/-- `JSONStorage.addPath` (= `updatePath`): load, upsert, save. -/
def storageAddPath (p : Path) (s : BrainSt) : BrainSt :=
  let gs := storageLoad s
  saveToStorage (addPathJS gs.1 p) gs.2

/-- `JSONStorage.addNode` (= `updateNode`): load, set, save. -/
def storageAddNode (node : Node) (s : BrainSt) : BrainSt :=
  let gs := storageLoad s
  saveToStorage (addNodeJS gs.1 node) gs.2

/-- `JSONStorage.getNode`. -/
def storageGetNode (nodeId : NodeId) (s : BrainSt) : Option Node × BrainSt :=
  let gs := storageLoad s
  (listGet (nodeIdToKey nodeId) gs.1.nodes, gs.2)

def setCurrentNodeId (nodeId : NodeId) (s : BrainSt) : BrainSt :=
  { s with graph := s.graph.map (fun g => { g with currentNodeId := some nodeId }) }

/-- `NavigationBrain.updateShadowDOM`: capture, best-effort OCR, VLM
element identification, instance hash, replace the snapshot. -/
def updateShadowDOM (env : Env) (nodeId : NodeId) (s : BrainSt) : BrainSt :=
  let c := takeCapture env s
  let o := tryOcr env c.2
  let idr := getIdentify env o.2
  { idr.2 with
    shadowDOM := some
      { nodeId := nodeId
        capturedAt := 0
        screenshot := c.1
        uiElements := idr.1.1
        ocrResult := o.1
        vlmDescription := idr.1.2
        instanceHash := hashElements idr.1.1 } }

/-- `NavigationBrain.identifyCurrentNode` (the embedding has no throwing
captures, so the `null` branch of the source never fires here). -/
def identifyCurrentNode (env : Env) (s : BrainSt) : Option NodeId × BrainSt :=
  let c := takeCapture env s
  let o := tryOcr env c.2
  let p := getProgramName env o.2
  let idr := getIdentify env p.2
  let nodeId : NodeId := ⟨p.1, hashElements idr.1.1⟩
  (some nodeId, updateShadowDOM env nodeId idr.2)

/-- The optional `metadata` argument of `NavigationBrain.addNode`. -/
structure NodeMetaArg where
  title : Option String
  screenshot : Option String
  uiElements : Option (List UIElement)
  description : Option String

/-- `NavigationBrain.addNode`. -/
def addNode (nodeId : NodeId) (meta : Option NodeMetaArg) (s : BrainSt) :
    Option Node × BrainSt :=
  match s.graph with
  | none => (none, s)
  | some _ =>
      let gn := storageGetNode nodeId s
      match gn.1 with
      | some existing =>
          let upd :=
            { existing with
              metadata :=
                { existing.metadata with
                  lastVisitedAt := 0
                  visitCount := existing.metadata.visitCount + 1 } }
          (some upd, setCurrentNodeId nodeId (storageAddNode upd gn.2))
      | none =>
          let node : Node :=
            { id := nodeId
              metadata :=
                { title := meta.bind (fun m => m.title)
                  screenshot := meta.bind (fun m => m.screenshot)
                  uiElements := ((meta.bind (fun m => m.uiElements))).getD []
                  description := meta.bind (fun m => m.description)
                  createdAt := 0
                  lastVisitedAt := 0
                  visitCount := 1 }
              childrenIds := [] }
          (some node, setCurrentNodeId nodeId (storageAddNode node gn.2))

/-- Assign `randomUUID()` ids to the VLM's actions (`learnPath`'s `.map`),
with `retryOnFailure: true`. -/
def assignActionIds (env : Env) : List (ActionData × String) → BrainSt →
    List Action × BrainSt
  | [], s => ([], s)
  | dd :: rest, s =>
      let u := getUuid env s
      let tl := assignActionIds env rest u.2
      ({ id := u.1, data := dd.1, description := some dd.2,
         retryOnFailure := some true } :: tl.1, tl.2)

/-- `NavigationBrain.learnPath`: ask the VLM for a plan; reject it when
`actions.length === 0 || confidence < 0.3`; otherwise build a `Path` with
the `("Unknown", "pending")` placeholder destination. -/
def learnPath (env : Env) (s : BrainSt) : Option Path × BrainSt :=
  match s.graph with
  | none => (none, s)
  | some g =>
      match g.currentNodeId with
      | none => (none, s)
      | some fromNodeId =>
          let c := takeCapture env s
          let o := tryOcr env c.2
          let lr := getLearn env o.2
          if lr.1.1 = [] ∨ lr.1.2 < mkRat 3 10 then (none, lr.2)
          else
            let acts := assignActionIds env lr.1.1 lr.2
            let pid := getUuid env acts.2
            (some
              { id := pid.1
                fromNodeId := fromNodeId
                toNodeId := ⟨"Unknown", "pending"⟩
                actions := acts.1
                validation :=
                  { expectedElements := [], expectedText := none,
                    timeout := some 30000 }
                verificationHistory := none
                metadata :=
                  { successRate := 0, lastUsed := 0, usageCount := 0,
                    averageDuration := 0, learnedBy := LearnedBy.vlm } },
              pid.2)

/-- First element of maximal confidence, the `[0]` of the stable
descending sort `matches.sort((a, b) => b.confidence - a.confidence)`. -/
def bestByConfidence (h : OCRElement) (t : List OCRElement) : OCRElement :=
  t.foldl (fun best el => if best.confidence < el.confidence then el else best) h

/-- `NavigationBrain.executeAction`. -/
def executeAction (env : Env) (action : Action) (s : BrainSt) : Bool × BrainSt :=
  match action.data with
  | .click x y txt button double =>
      match x, y with
      | some xv, some yv =>
          (true, pushEvent
            (SysEvent.clickAt xv yv (button.getD MouseButton.left)
              (double.getD false)) s)
      | _, _ =>
          match txt with
          | some t =>
              if t = "" then (true, s)
              else
                let c := takeCapture env s
                if env.ocrAvailable then
                  match env.ocr c.2.nOcr, { c.2 with nOcr := c.2.nOcr + 1 } with
                  | none, s2 => (false, s2)
                  | some ocrRes, s2 =>
                      match ocrRes.elements.filter (fun el =>
                        jsIncludes (jsToLower el.text) (jsToLower t)) with
                      | [] => (false, s2)
                      | m :: ms =>
                          match (bestByConfidence m ms).bbox with
                          | some bb =>
                              (true, pushEvent
                                (SysEvent.clickBBoxCenter bb
                                  (button.getD MouseButton.left)
                                  (double.getD false)) s2)
                          | none => (true, s2)
                else (false, c.2)
          | none => (true, s)
  | .type text pe _ =>
      let s1 := pushEvent (SysEvent.typeText text) s
      if pe.getD false then (true, pushEvent SysEvent.pressEnter s1) else (true, s1)
  | .hotkey key mods =>
      (true, pushEvent (SysEvent.pressKey key (mods.getD [])) s)
  | .wait _ => (true, s)
  | .scroll amount direction => (true, pushEvent (scroll amount direction) s)
  | .spotlight _ _ => (false, s)

/-- Append one `PathVerification` to a path's history. -/
def pushVerification (p : Path) (v : PathVerification) : Path :=
  { p with verificationHistory := some ((p.verificationHistory.getD []) ++ [v]) }

def joinComma (ts : List String) : String := String.intercalate ", " ts

/-- The VLM stage of `verifyActionResult` (runs only when
`expectedElements` is non-empty). -/
def verifyVlmStage (env : Env) (path : Path) (v : PathVerification)
    (s : BrainSt) : PathVerification × BrainSt :=
  if path.validation.expectedElements.length > 0 then
    let vr := getVerify env s
    if ¬vr.1.matched ∨ vr.1.confidence < mkRat 1 2 then
      ({ v with
          vlmResult := some vr.1
          success := false
          failureReason := some vr.1.reason }, vr.2)
    else ({ v with vlmResult := some vr.1, success := true }, vr.2)
  else ({ v with success := true }, s)

/-- `NavigationBrain.verifyActionResult`: verify from the existing
ShadowDOM; the `expectedText` check runs only when the ShadowDOM carries
an OCR result, and passes when SOME expected text occurs in some OCR
element. -/
def verifyActionResult (env : Env) (path : Path) (actionIndex : Nat)
    (s : BrainSt) : PathVerification × BrainSt :=
  let base : PathVerification :=
    { timestamp := TVal.date 0, success := false, actionIndex := actionIndex,
      ocrResult := none, vlmResult := none, failureReason := none }
  match s.shadowDOM with
  | none =>
      ({ base with failureReason := some "ShadowDOM not available for verification" }, s)
  | some sh =>
      match sh.ocrResult with
      | some ocrRes =>
          let withOcr :=
            { base with ocrResult := some ⟨ocrRes.fullText, ocrRes.elements.length⟩ }
          match path.validation.expectedText with
          | some ts =>
              if ts.length > 0 then
                if ts.any (fun expectedText =>
                    ocrRes.elements.any (fun el =>
                      jsIncludes (jsToLower el.text) (jsToLower expectedText))) then
                  verifyVlmStage env path withOcr s
                else
                  ({ withOcr with
                      success := false
                      failureReason :=
                        some ("Expected text not found: " ++ joinComma ts) }, s)
              else verifyVlmStage env path withOcr s
          | none => verifyVlmStage env path withOcr s
      | none => verifyVlmStage env path base s

/-- The per-action loop of `executePath` over the remaining actions,
threading the path (whose `verificationHistory` grows).  A failed action
is retried once when `retryOnFailure`; a successful retry `continue`s
(skipping that action's verification). -/
def execLoop (env : Env) (p : Path) (i : Nat) (acts : List Action)
    (s : BrainSt) : (Bool × Path) × BrainSt :=
  match acts with
  | [] => ((true, p), s)
  | action :: rest =>
      let r := executeAction env action s
      if r.1 then
        let currentNodeId := (r.2.graph.bind (fun g => g.currentNodeId)).getD p.toNodeId
        let s2 := updateShadowDOM env currentNodeId r.2
        let vr := verifyActionResult env p i s2
        let p1 := pushVerification p vr.1
        if vr.1.success then execLoop env p1 (i + 1) rest vr.2
        else ((false, p1), vr.2)
      else
        let p1 := pushVerification p
          { timestamp := TVal.date 0, success := false, actionIndex := i,
            ocrResult := none, vlmResult := none,
            failureReason := some "Action execution failed" }
        if action.retryOnFailure.getD false then
          let r2 := executeAction env action r.2
          if r2.1 then execLoop env p1 (i + 1) rest r2.2
          else ((false, p1), r2.2)
        else ((false, p1), r.2)

/-- The metadata update at the end of `executePath` (the embedded clock
makes every `duration` zero). -/
def updatePathMeta (m : PathMeta) (success : Bool) : PathMeta :=
  let nc : Rat := mkRat (m.usageCount + 1 : Nat) 1
  { m with
    usageCount := m.usageCount + 1
    lastUsed := 0
    successRate :=
      if success then qDiv (qAdd (qMul m.successRate (qSub nc 1)) 1) nc
      else qDiv (qMul m.successRate (qSub nc 1)) nc
    averageDuration := qDiv (qAdd (qMul m.averageDuration (qSub nc 1)) 0) nc }

/-- `NavigationBrain.executePath`: initialize the history, run the loop,
update the metadata, and persist the path via `storage.updatePath`. -/
def executePath (env : Env) (path : Path) (s : BrainSt) :
    (Bool × Path) × BrainSt :=
  let path0 :=
    { path with verificationHistory := some (path.verificationHistory.getD []) }
  let lr := execLoop env path0 0 path0.actions s
  let p2 := { lr.1.2 with metadata := updatePathMeta lr.1.2.metadata lr.1.1 }
  ((lr.1.1, p2), storageAddPath p2 lr.2)

/-- `NavigationBrain.navigateTo`: always learn a fresh path, execute it,
and on success re-identify, patch `toNodeId`, persist, and record the
target node. -/
def navigateTo (env : Env) (s : BrainSt) : Bool × BrainSt :=
  match s.graph with
  | none => (false, s)
  | some _ =>
      let lp := learnPath env s
      match lp.1 with
      | none => (false, lp.2)
      | some path =>
          let ex := executePath env path lp.2
          if ex.1.1 then
            let idn := identifyCurrentNode env ex.2
            match idn.1 with
            | none => (false, idn.2)
            | some newNodeId =>
                let p2 := { ex.1.2 with toNodeId := newNodeId }
                let s4 := storageAddPath p2 idn.2
                let an := addNode newNodeId none s4
                match an.1 with
                | none => (false, an.2)
                | some _ => (true, an.2)
          else (false, ex.2)

/-- `NavigationBrain.initialize`: load the graph and ensure the default
Spotlight node exists. -/
def brainInit (s : BrainSt) : Bool × BrainSt :=
  let gs := storageLoad s
  let spotlightNodeId : NodeId := ⟨"Spotlight", "default"⟩
  match listGet (nodeIdToKey spotlightNodeId) gs.1.nodes with
  | some _ => (true, gs.2)
  | none =>
      let spotlightNode : Node :=
        { id := spotlightNodeId
          metadata :=
            { title := some "macOS Spotlight Search"
              screenshot := none
              uiElements := [⟨"input", some "Spotlight Search", none, none⟩]
              description :=
                some "Default system search interface accessible via Cmd+Space"
              createdAt := 0
              lastVisitedAt := 0
              visitCount := 0 }
          childrenIds := [] }
      (true, storageAddNode spotlightNode gs.2)


/-! ## Concrete scenarios used by the theorems -/

/-- A minimal skeleton path between two nodes. -/
def mkPath (pid : String) (fromId toId : NodeId) : Path :=
  { id := pid
    fromNodeId := fromId
    toNodeId := toId
    actions := []
    validation := { expectedElements := [], expectedText := none, timeout := none }
    verificationHistory := none
    metadata :=
      { successRate := 0, lastUsed := 0, usageCount := 0, averageDuration := 0,
        learnedBy := LearnedBy.manual } }

def nidF : NodeId := ⟨"F", "f"⟩
def nidA : NodeId := ⟨"A", "a"⟩
def nidB : NodeId := ⟨"B", "b"⟩

/-- Three `addPath` calls from an empty graph: the third path matches the
first stored one by destination and the second stored one by id. -/
def graphC3 : NavigationGraph :=
  addPathJS (addPathJS (addPathJS (createEmptyGraph 0)
    (mkPath "1" nidF nidA)) (mkPath "2" nidF nidB)) (mkPath "2" nidF nidA)

def nid6 : NodeId := ⟨"Finder", "aaaa"⟩

def node6 : Node :=
  { id := nid6
    metadata :=
      { title := none, screenshot := none, uiElements := [], description := none,
        createdAt := 0, lastVisitedAt := 0, visitCount := 1 }
    childrenIds := [] }

/-- A path carrying one `PathVerification` whose timestamp is a `Date`. -/
def path6 : Path :=
  { mkPath "p6" nid6 nid6 with
      verificationHistory := some [⟨TVal.date 0, true, 0, none, none, none⟩] }

/-- An in-memory graph with one node and one path (with history). -/
def graph6 : NavigationGraph :=
  { nodes := [(nodeIdToKey nid6, node6)]
    edges := [(nodeIdToKey nid6, [path6])]
    currentNodeId := some nid6
    version := "1.0.0"
    createdAt := 0
    updatedAt := 0 }

/-- The first verification timestamp of the first path of a graph. -/
def firstVerTimestamp (g : NavigationGraph) : Option TVal :=
  ((g.edges.head?.bind (fun kp => kp.2.head?)).bind
    (fun p => (p.verificationHistory.getD []).head?)).map (fun v => v.timestamp)

/-- A path expecting both "apple" and "zebra". -/
def path7 : Path :=
  { mkPath "p7" nid6 nid6 with
      validation :=
        { expectedElements := [], expectedText := some ["apple", "zebra"],
          timeout := none } }

/-- A ShadowDOM whose OCR sees only "Apple menu". -/
def shadow7 : ShadowDOM :=
  { nodeId := nid6, capturedAt := 0, screenshot := "", uiElements := []
    ocrResult := some ⟨"Apple menu", [⟨"Apple menu", 1, none⟩]⟩
    vlmDescription := "", instanceHash := "" }

def st7 : BrainSt := { st0 with shadowDOM := some shadow7 }

/-- An environment in which the VLM always proposes one coordinate click
with confidence 0.9, identifies no elements, and names the program
"Settings"; OCR is unsupported. -/
def env0 : Env :=
  { screenshots := fun _ => ""
    ocrSupported := false
    ocrAvailable := false
    ocr := fun _ => none
    programName := fun _ => "Settings"
    identify := fun _ => ([], "screen")
    learn := fun _ =>
      ([(ActionData.click (some 100) (some 200) none none none,
         "Click Settings")], mkRat 9 10)
    verify := fun _ => ⟨true, 1, "ok"⟩
    uuid := fun n => "uuid-" ++ toString n }

/-- Boot the brain, identify the current node and record it (setting
`currentNodeId`), as the surrounding agent does before navigating. -/
def navSetup : BrainSt :=
  let b := brainInit st0
  let idn := identifyCurrentNode env0 b.2
  (addNode (idn.1.getD ⟨"", ""⟩) none idn.2).2

/-- First `navigateTo` call (the learning pass). -/
def navOnce : Bool × BrainSt := navigateTo env0 navSetup

/-- Second `navigateTo` call with the same target (the would-be replay). -/
def navTwice : Bool × BrainSt := navigateTo env0 navOnce.2

def elW1 : UIElement := ⟨"text", some "a", some ⟨0, 0, 100, 0⟩, none⟩
def elW2 : UIElement := ⟨"text", some "a", some ⟨0, 0, 200, 0⟩, none⟩


/-- Two elements whose bbox components land in the same 10-pixel floor
buckets (same kind and text; confidence free). -/
def sameBucket (e f : UIElement) : Prop :=
  e.type = f.type ∧ e.text = f.text ∧
    ((e.position = none ∧ f.position = none) ∨
      (∃ p q, e.position = some p ∧ f.position = some q ∧
        quant10 p.x = quant10 q.x ∧ quant10 p.y = quant10 q.y ∧
        quant10 p.width = quant10 q.width ∧ quant10 p.height = quant10 q.height))

def elW3 : UIElement := ⟨"button", some "OK", some ⟨11, 21, 31, 41⟩, none⟩
def elW4 : UIElement := ⟨"button", some "OK", some ⟨19, 29, 39, 49⟩, some 1⟩


/-- Execute a path `n` times in sequence (threading the updated path and
state through), recording the outcome of each run. -/
def execTimes (env : Env) : Nat → Path → BrainSt → (List Bool × Path) × BrainSt
  | 0, p, s => (([], p), s)
  | n + 1, p, s =>
      let r := executePath env p s
      let rest := execTimes env n r.1.2 r.2
      ((r.1.1 :: rest.1.1, rest.1.2), rest.2)

/-! ## Theorems -/

/-- C2 (code bug): even a fully successful `navigateTo` run persists —
through the `storage.updatePath` at the end of `executePath`, which runs
before `navigateTo` patches the placeholder — a graph document containing
a path whose `toNodeId.stateHash` is `"pending"`. -/
theorem C2_pending_path_persisted :
    navOnce.1 = true ∧
    navOnce.2.writes.any (fun w => w.edges.any (fun kp =>
      kp.2.any (fun p => p.toNodeId.stateHash == "pending"))) = true := by
  decide

/-- C3 (code bug): from an empty graph, `addPath` of `(id 1, to A)`, then
`(id 2, to B)`, then `(id 2, to A)` leaves the source's path list with TWO
entries of id `"2"`: the third call matches the first entry by
destination, replaces only it, and never removes the second entry that
shares its id. -/
theorem C3_addPath_leaves_duplicate_ids :
    ((listGet (nodeIdToKey nidF) graphC3.edges).getD []).map
        (fun p => (p.id, nodeIdToKey p.toNodeId)) =
      [("2", "A::a"), ("2", "B::b")] ∧
    (((listGet (nodeIdToKey nidF) graphC3.edges).getD []).countP
      (fun p => p.id == "2")) = 2 := by
  decide

/-- C6 (code bug): the on-disk round trip restores every date except the
`verificationHistory` timestamps, which come back as raw ISO strings:
`decode (encode g)` differs from `g` exactly there (the same graph with an
empty history round-trips). -/
theorem C6_roundtrip_drops_history_dates :
    firstVerTimestamp graph6 = some (TVal.date 0) ∧
    firstVerTimestamp (decodeGraph (encodeGraph graph6)) =
      some (TVal.str "1970-01-01T00:00:00.000Z") ∧
    decodeGraph (encodeGraph graph6) ≠ graph6 ∧
    (decodeGraph (encodeGraph
        { graph6 with
            edges := [(nodeIdToKey nid6,
              [{ path6 with verificationHistory := some [] }])] }) =
      { graph6 with
          edges := [(nodeIdToKey nid6,
            [{ path6 with verificationHistory := some [] }])] }) := by
  decide

/-- C9 (code bug): `MouseController.scroll` computes a signed amount but
then always emits `mouse.scrollDown(Math.abs(...))`: every scroll —
including `direction: 'up'` — scrolls down, and the `executeAction`
dispatcher forwards exactly that event. -/
theorem C9_scroll_ignores_direction :
    (∀ (amount : Int) (d : ScrollDir),
      scroll amount d = SysEvent.scrollDown amount.natAbs) ∧
    scroll 3 ScrollDir.up = SysEvent.scrollDown 3 ∧
    SysEvent.scrollDown 3 ≠ SysEvent.scrollUp 3 ∧
    (∀ (env : Env) (s : BrainSt) (amount : Int) (d : ScrollDir)
        (aid : String) (desc : Option String) (retry : Option Bool),
      (executeAction env
          ⟨aid, ActionData.scroll amount d, desc, retry⟩ s).2.events =
        s.events ++ [SysEvent.scrollDown amount.natAbs]) := by
  refine ⟨fun amount d => ?_, by decide, by decide,
    fun env s amount d aid desc retry => ?_⟩
  · cases d <;> simp [scroll, Int.natAbs_neg]
  · cases d <;> simp [executeAction, pushEvent, scroll, Int.natAbs_neg]

/-- C1 (counterexample): from a freshly booted brain with a recorded
current node, two `navigateTo` calls with the same target both succeed and
perform TWO path-synthesis VLM invocations (`learnNavigationPath` calls),
not one: the second call re-learns instead of re-reading the stored
Path. -/
theorem C1_two_calls_two_syntheses :
    navOnce.1 = true ∧ navTwice.1 = true ∧
    navTwice.2.nLearn = 2 ∧ ¬navTwice.2.nLearn = 1 := by
  decide

/-- C4 (counterexample): two normalized elements that tie under the sort
comparator (same type, text, x and y) but differ in width are kept in
input order by the stable sort, so swapping them changes the hash:
`hashElements` is not permutation-invariant. -/
theorem C4_hash_not_permutation_invariant :
    [elW1, elW2].Perm [elW2, elW1] ∧
    hashElements [elW1, elW2] ≠ hashElements [elW2, elW1] := by
  refine ⟨List.Perm.swap _ _ _, by decide⟩

/-- C5 (counterexample): flooring to multiples of 10 does not absorb all
sub-10-pixel jitter: moving `x` from 9 to 14 (a 5-pixel perturbation, all
other components unchanged) crosses a bucket boundary and changes the
hash. -/
theorem C5_small_jitter_changes_hash :
    ((14 : Int) - 9).natAbs < 10 ∧
    hashElements [⟨"text", some "a", some ⟨9, 0, 0, 0⟩, none⟩] ≠
      hashElements [⟨"text", some "a", some ⟨14, 0, 0, 0⟩, none⟩] := by
  decide

/-- C7 (counterexample): with `expectedText = ["apple", "zebra"]` and an
OCR result containing only "Apple menu", the post-action verification
succeeds although "zebra" appears nowhere: the source requires only SOME
expected text to be present (`Array.prototype.some`), not every one. -/
theorem C7_verification_needs_only_one_text :
    (verifyActionResult env0 path7 0 st7).1.success = true ∧
    path7.validation.expectedText = some ["apple", "zebra"] ∧
    (shadow7.ocrResult.getD ⟨"", []⟩).elements.any
      (fun el => jsIncludes (jsToLower el.text) (jsToLower "zebra")) = false := by
  decide

/-- C10 (counterexample): the claimed separator-freedom condition is not
sufficient: for `⟨"a:", "b"⟩` neither component contains `"::"`, yet the
key `"a:::b"` splits as `["a", ":b"]` and the round trip fails. -/
theorem C10_roundtrip_fails_on_trailing_colon :
    jsIncludes "a:" "::" = false ∧ jsIncludes "b" "::" = false ∧
    keyToNodeId (nodeIdToKey ⟨"a:", "b"⟩) ≠ ⟨"a:", some "b"⟩ := by
  decide

/-- C5 (amended): `hashElements` is invariant under any per-element
perturbation that keeps every bbox component in its 10-pixel floor bucket
(kinds and texts unchanged, confidences free). -/
theorem C5_hash_bucket_invariant (l1 l2 : List UIElement)
    (h : List.Forall₂ sameBucket l1 l2) : hashElements l1 = hashElements l2 := by
  have hmap : l1.map normalizeEl = l2.map normalizeEl := by
    induction h with
    | nil => rfl
    | cons hab htl ih =>
        refine congrArg₂ (· :: ·) ?_ ih
        obtain ⟨ht, htext, hpos⟩ := hab
        unfold normalizeEl
        rcases hpos with ⟨h1, h2⟩ | ⟨p, q, hp, hq, hx, hy, hw, hh⟩
        · simp [ht, htext, h1, h2]
        · simp [ht, htext, hp, hq, hx, hy, hw, hh]
  unfold hashElements
  rw [hmap]

/-- C5 (witness): the bucket-invariance theorem applied to a concrete
pair of elements whose components differ by 8 pixels inside one bucket. -/
theorem C5_hash_bucket_invariant_witness :
    List.Forall₂ sameBucket [elW3] [elW4] ∧
      hashElements [elW3] = hashElements [elW4] := by
  have h : List.Forall₂ sameBucket [elW3] [elW4] :=
    List.Forall₂.cons
      ⟨rfl, rfl, Or.inr ⟨⟨11, 21, 31, 41⟩, ⟨19, 29, 39, 49⟩, rfl, rfl,
        by decide, by decide, by decide, by decide⟩⟩ List.Forall₂.nil
  exact ⟨h, C5_hash_bucket_invariant [elW3] [elW4] h⟩


/-! ### The executable rational operations are the field operations -/

theorem qAdd_eq (a b : Rat) : qAdd a b = a + b := by
  have ha : ((a.den : Int) : Rat) ≠ 0 := by
    exact_mod_cast (Nat.cast_ne_zero (R := Rat)).mpr a.den_nz
  have hb : ((b.den : Int) : Rat) ≠ 0 := by
    exact_mod_cast (Nat.cast_ne_zero (R := Rat)).mpr b.den_nz
  unfold qAdd
  rw [Rat.divInt_eq_div]
  conv_rhs => rw [← Rat.num_div_den a, ← Rat.num_div_den b]
  push_cast
  field_simp
  try ring

theorem qSub_eq (a b : Rat) : qSub a b = a - b := by
  have ha : ((a.den : Int) : Rat) ≠ 0 := by
    exact_mod_cast (Nat.cast_ne_zero (R := Rat)).mpr a.den_nz
  have hb : ((b.den : Int) : Rat) ≠ 0 := by
    exact_mod_cast (Nat.cast_ne_zero (R := Rat)).mpr b.den_nz
  unfold qSub
  rw [Rat.divInt_eq_div]
  conv_rhs => rw [← Rat.num_div_den a, ← Rat.num_div_den b]
  push_cast
  field_simp
  try ring

theorem qMul_eq (a b : Rat) : qMul a b = a * b := by
  have ha : ((a.den : Int) : Rat) ≠ 0 := by
    exact_mod_cast (Nat.cast_ne_zero (R := Rat)).mpr a.den_nz
  have hb : ((b.den : Int) : Rat) ≠ 0 := by
    exact_mod_cast (Nat.cast_ne_zero (R := Rat)).mpr b.den_nz
  unfold qMul
  rw [Rat.divInt_eq_div]
  conv_rhs => rw [← Rat.num_div_den a, ← Rat.num_div_den b]
  push_cast
  field_simp
  try ring

theorem qDiv_eq (a b : Rat) : qDiv a b = a / b := by
  by_cases hb0 : b.num = 0
  · have : b = 0 := by
      rwa [Rat.num_eq_zero] at hb0
    subst this
    unfold qDiv
    simp [hb0]
  · have ha : ((a.den : Int) : Rat) ≠ 0 := by
      exact_mod_cast (Nat.cast_ne_zero (R := Rat)).mpr a.den_nz
    have hbd : ((b.den : Int) : Rat) ≠ 0 := by
      exact_mod_cast (Nat.cast_ne_zero (R := Rat)).mpr b.den_nz
    have hbn : ((b.num : Int) : Rat) ≠ 0 := by exact_mod_cast hb0
    have hb : b ≠ 0 := by
      intro h
      exact hb0 (by simp [h])
    unfold qDiv
    rw [Rat.divInt_eq_div]
    conv_rhs => rw [← Rat.num_div_den a, ← Rat.num_div_den b]
    push_cast
    rw [div_div_div_comm]
    field_simp
    left
    ring

/-! ### C7: per-action verification -/

/-- C7 (amended): when the ShadowDOM has an OCR result, `expectedText` is
non-empty and `expectedElements` is empty, the post-action verification
succeeds iff AT LEAST ONE expected text occurs (case-insensitively, as a
substring) in some OCR element, and on failure the reason starts with
`"Expected text not found"`. -/
theorem C7_verification_passes_on_some_text (env : Env) (path : Path)
    (i : Nat) (s : BrainSt) (sh : ShadowDOM) (ocrRes : OCRAnalysis)
    (ts : List String) (hsh : s.shadowDOM = some sh)
    (hocr : sh.ocrResult = some ocrRes)
    (hts : path.validation.expectedText = some ts) (hne : ts ≠ [])
    (hel : path.validation.expectedElements = []) :
    ((verifyActionResult env path i s).1.success =
      ts.any (fun t => ocrRes.elements.any (fun el =>
        jsIncludes (jsToLower el.text) (jsToLower t)))) ∧
    (ts.any (fun t => ocrRes.elements.any (fun el =>
        jsIncludes (jsToLower el.text) (jsToLower t))) = false →
      (verifyActionResult env path i s).1.failureReason =
        some ("Expected text not found: " ++ joinComma ts)) := by
  have hlen : 0 < ts.length := List.length_pos.mpr hne
  unfold verifyActionResult verifyVlmStage
  simp only [hsh, hocr, hts, hel]
  rw [if_pos hlen]
  cases hany : ts.any (fun t => ocrRes.elements.any (fun el =>
      jsIncludes (jsToLower el.text) (jsToLower t))) with
  | false => simp [hany]
  | true => simp [hany]


/-- C7 (witness): the amended verification theorem applied to the
concrete scenario (OCR sees "Apple menu", expecting ["apple", "zebra"]). -/
theorem C7_verification_passes_on_some_text_witness :
    st7.shadowDOM = some shadow7 ∧
    (verifyActionResult env0 path7 0 st7).1.success =
      ["apple", "zebra"].any (fun t =>
        (OCRAnalysis.mk "Apple menu" [⟨"Apple menu", 1, none⟩]).elements.any
          (fun el => jsIncludes (jsToLower el.text) (jsToLower t))) := by
  refine ⟨rfl, ?_⟩
  exact (C7_verification_passes_on_some_text env0 path7 0 st7 shadow7
    ⟨"Apple menu", [⟨"Apple menu", 1, none⟩]⟩ ["apple", "zebra"]
    rfl rfl rfl (by decide) rfl).1

/-! ### C4: order properties of the sort comparator -/

theorem cmpChars_swap : ∀ s t : List Char, cmpChars t s = -cmpChars s t := by
  intro s
  induction s with
  | nil => intro t; cases t <;> simp [cmpChars]
  | cons c cs ih =>
      intro t
      cases t with
      | nil => simp [cmpChars]
      | cons d ds =>
          simp only [cmpChars]
          by_cases h1 : c.toNat < d.toNat
          · rw [if_neg (by omega), if_pos h1, if_pos h1]
            norm_num
          · by_cases h2 : d.toNat < c.toNat
            · rw [if_pos h2, if_neg h1, if_pos h2]
            · rw [if_neg h2, if_neg h1, if_neg h1, if_neg h2]
              exact ih ds

theorem cmpChars_eq_zero : ∀ s t : List Char, cmpChars s t = 0 ↔ s = t := by
  intro s
  induction s with
  | nil => intro t; cases t <;> simp [cmpChars]
  | cons c cs ih =>
      intro t
      cases t with
      | nil => simp [cmpChars]
      | cons d ds =>
          simp only [cmpChars, List.cons.injEq]
          by_cases h1 : c.toNat < d.toNat
          · rw [if_pos h1]
            constructor
            · intro h
              exact absurd h (by decide)
            · rintro ⟨h, -⟩
              subst h
              omega
          · by_cases h2 : d.toNat < c.toNat
            · rw [if_neg h1, if_pos h2]
              constructor
              · intro h
                exact absurd h (by decide)
              · rintro ⟨h, -⟩
                subst h
                omega
            · have hcd : c = d := by
                have htn : c.toNat = d.toNat := by omega
                unfold Char.toNat at htn
                exact Char.ext (UInt32.toNat.inj htn)
              rw [if_neg h1, if_neg h2, ih ds]
              simp [hcd]

theorem cmpChars_le_trans :
    ∀ s t u : List Char, cmpChars s t ≤ 0 → cmpChars t u ≤ 0 → cmpChars s u ≤ 0 := by
  intro s
  induction s with
  | nil => intro t u _ _; cases u <;> simp [cmpChars]
  | cons c cs ih =>
      intro t u h1 h2
      cases t with
      | nil => simp [cmpChars] at h1
      | cons d ds =>
          cases u with
          | nil => simp [cmpChars] at h2
          | cons e es =>
              simp only [cmpChars] at h1 h2 ⊢
              split_ifs at h1 h2 ⊢ <;> first | omega | exact ih ds es h1 h2

theorem cmpStr_swap (s t : String) : cmpStr t s = -cmpStr s t :=
  cmpChars_swap s.data t.data

theorem cmpStr_eq_zero (s t : String) : cmpStr s t = 0 ↔ s = t := by
  unfold cmpStr
  rw [cmpChars_eq_zero]
  constructor
  · intro h
    cases s with
    | mk ld =>
        cases t with
        | mk le => exact congrArg String.mk h
  · intro h
    rw [h]

theorem cmpStr_le_trans (s t u : String) :
    cmpStr s t ≤ 0 → cmpStr t u ≤ 0 → cmpStr s u ≤ 0 :=
  cmpChars_le_trans s.data t.data u.data

theorem cmpPos_swap (p q : BBox) : cmpPos q p = -cmpPos p q := by
  unfold cmpPos
  split_ifs <;> omega

theorem cmpPos_le_trans (p q r : BBox) :
    cmpPos p q ≤ 0 → cmpPos q r ≤ 0 → cmpPos p r ≤ 0 := by
  unfold cmpPos
  split_ifs <;> omega

theorem cmpNorm_swap (a b : NormEl) : cmpNorm b a = -cmpNorm a b := by
  unfold cmpNorm
  by_cases ht : a.type = b.type
  · rw [if_neg (fun h => h ht.symm)]
    by_cases htx : a.text = b.text
    · rw [if_neg (fun h => h htx.symm), if_neg (fun h => h ht),
        if_neg (fun h => h htx)]
      rcases hpa : a.position with _ | p <;> rcases hpb : b.position with _ | q <;>
        simp only [hpa, hpb] <;>
        first
          | exact cmpPos_swap p q
          | norm_num
    · rw [if_pos (fun h => htx h.symm), if_neg (fun h => h ht), if_pos htx]
      exact cmpStr_swap a.text b.text
  · rw [if_pos (fun h => ht h.symm), if_pos ht]
    exact cmpStr_swap a.type b.type

theorem cmpNorm_le_trans (a b c : NormEl)
    (h1 : cmpNorm a b ≤ 0) (h2 : cmpNorm b c ≤ 0) : cmpNorm a c ≤ 0 := by
  have hstr : ∀ s t : String, s ≠ t → cmpStr s t ≤ 0 → cmpStr s t < 0 := by
    intro s t hne hle
    rcases lt_or_eq_of_le hle with h | h
    · exact h
    · exact absurd ((cmpStr_eq_zero s t).mp h) hne
  unfold cmpNorm at h1 h2 ⊢
  by_cases hab : a.type = b.type
  · rw [if_neg (fun h => h hab)] at h1
    by_cases hbc : b.type = c.type
    · rw [if_neg (fun h => h hbc)] at h2
      rw [if_neg (fun h => h (hab.trans hbc))]
      by_cases hxab : a.text = b.text
      · rw [if_neg (fun h => h hxab)] at h1
        by_cases hxbc : b.text = c.text
        · rw [if_neg (fun h => h hxbc)] at h2
          rw [if_neg (fun h => h (hxab.trans hxbc))]
          rcases hpa : a.position with _ | p <;>
            rcases hpb : b.position with _ | q <;>
            rcases hpc : c.position with _ | r <;>
            simp only [hpa, hpb, hpc] at h1 h2 ⊢ <;>
            first
              | omega
              | exact cmpPos_le_trans p q r h1 h2
        · rw [if_pos hxbc] at h2
          have hxac : a.text ≠ c.text := fun h => hxbc (hxab.symm.trans h)
          rw [if_pos hxac, hxab]
          exact h2
      · rw [if_pos hxab] at h1
        by_cases hxbc : b.text = c.text
        · have hxac : a.text ≠ c.text := fun h => hxab (h.trans hxbc.symm)
          rw [if_pos hxac, ← hxbc]
          exact h1
        · rw [if_pos hxbc] at h2
          have h1s := hstr _ _ hxab h1
          have h2s := hstr _ _ hxbc h2
          by_cases hxac : a.text = c.text
          · exfalso
            have hsw := cmpStr_swap a.text b.text
            rw [← hxac] at h2s
            omega
          · rw [if_pos hxac]
            exact cmpStr_le_trans _ _ _ (le_of_lt h1s) (le_of_lt h2s)
    · rw [if_pos hbc] at h2
      by_cases hac : a.type = c.type
      · exact absurd (hab.symm.trans hac) hbc
      · rw [if_pos hac, hab]
        exact h2
  · rw [if_pos hab] at h1
    by_cases hbc : b.type = c.type
    · have hac : a.type ≠ c.type := fun h => hab (h.trans hbc.symm)
      rw [if_pos hac, ← hbc]
      exact h1
    · rw [if_pos hbc] at h2
      have h1s := hstr _ _ hab h1
      have h2s := hstr _ _ hbc h2
      by_cases hac : a.type = c.type
      · exfalso
        have hsw := cmpStr_swap a.type b.type
        rw [← hac] at h2s
        omega
      · rw [if_pos hac]
        exact cmpStr_le_trans _ _ _ (le_of_lt h1s) (le_of_lt h2s)

/-- A tie of the comparator (both directions non-positive) is a zero. -/
theorem cmpNorm_tie (a b : NormEl) (h1 : cmpNorm a b ≤ 0) (h2 : cmpNorm b a ≤ 0) :
    cmpNorm a b = 0 := by
  have := cmpNorm_swap a b
  omega

/-- A sorted permutation of a sorted list with no non-trivial ties is the
list itself. -/
theorem sortedPermUnique :
    ∀ {l1 l2 : List NormEl}, l1.Perm l2 → l1.Sorted leNorm → l2.Sorted leNorm →
      (∀ x ∈ l2, ∀ y ∈ l2, cmpNorm x y = 0 → x = y) → l1 = l2 := by
  intro l1
  induction l1 with
  | nil => exact fun hp _ _ _ => hp.nil_eq
  | cons a t1 ih =>
      intro l2 hp hs1 hs2 hd
      cases l2 with
      | nil => simpa using hp.length_eq
      | cons b t2 =>
          have hab : a = b := by
            by_contra hne
            have hbmem : b ∈ a :: t1 := hp.mem_iff.mpr (List.mem_cons_self b t2)
            have hamem : a ∈ b :: t2 := hp.subset (List.mem_cons_self a t1)
            have hb1 : b ∈ t1 := by
              rcases List.mem_cons.mp hbmem with h | h
              · exact absurd h.symm hne
              · exact h
            have ha2 : a ∈ t2 := by
              rcases List.mem_cons.mp hamem with h | h
              · exact absurd h hne
              · exact h
            have h1 : leNorm a b := List.rel_of_sorted_cons hs1 b hb1
            have h2 : leNorm b a := List.rel_of_sorted_cons hs2 a ha2
            exact hne (hd a hamem b (List.mem_cons_self b t2) (cmpNorm_tie a b h1 h2))
          subst hab
          have hp2 : t1.Perm t2 := hp.cons_inv
          have htl : t1 = t2 :=
            ih hp2 hs1.of_cons hs2.of_cons
              (fun x hx y hy h0 =>
                hd x (List.mem_cons_of_mem _ hx) y (List.mem_cons_of_mem _ hy) h0)
          rw [htl]

/-- C4 (amended): `hashElements` is permutation-invariant provided no two
distinct normalized elements tie under the comparator (i.e. share type,
text and quantized `(x, y)` — with both-positions-present or both-absent —
while differing elsewhere); a permutation of such a list hashes
identically. -/
theorem C4_hash_perm_invariant_without_ties (l1 l2 : List UIElement)
    (hp : l1.Perm l2)
    (hd : ∀ a ∈ l1.map normalizeEl, ∀ b ∈ l1.map normalizeEl,
      cmpNorm a b = 0 → a = b) :
    hashElements l1 = hashElements l2 := by
  have hm : (l1.map normalizeEl).Perm (l2.map normalizeEl) := hp.map _
  have htot : IsTotal NormEl leNorm :=
    ⟨fun a b => by
      unfold leNorm
      have := cmpNorm_swap a b
      omega⟩
  have htrans : IsTrans NormEl leNorm :=
    ⟨fun a b c h1 h2 => cmpNorm_le_trans a b c h1 h2⟩
  have hs1 := @List.sorted_insertionSort NormEl leNorm _ htot htrans
    (l1.map normalizeEl)
  have hs2 := @List.sorted_insertionSort NormEl leNorm _ htot htrans
    (l2.map normalizeEl)
  have hperm :
      (List.insertionSort leNorm (l1.map normalizeEl)).Perm
        (List.insertionSort leNorm (l2.map normalizeEl)) :=
    (List.perm_insertionSort _ _).trans
      (hm.trans (List.perm_insertionSort _ _).symm)
  have heq :
      List.insertionSort leNorm (l1.map normalizeEl) =
        List.insertionSort leNorm (l2.map normalizeEl) := by
    refine sortedPermUnique hperm hs1 hs2 ?_
    intro x hx y hy h0
    rw [List.mem_insertionSort] at hx hy
    exact hd x (hm.symm.subset hx) y (hm.symm.subset hy) h0
  unfold hashElements
  rw [heq]

/-- C4 (witness): the amended permutation-invariance theorem applied to a
two-element list with distinct kinds (no comparator ties). -/
theorem C4_hash_perm_invariant_without_ties_witness :
    [⟨"button", some "OK", none, none⟩,
      (⟨"text", some "OK", none, none⟩ : UIElement)].Perm
        [⟨"text", some "OK", none, none⟩, ⟨"button", some "OK", none, none⟩] ∧
    hashElements
        [⟨"button", some "OK", none, none⟩, ⟨"text", some "OK", none, none⟩] =
      hashElements
        [⟨"text", some "OK", none, none⟩, ⟨"button", some "OK", none, none⟩] := by
  refine ⟨by decide, ?_⟩
  exact C4_hash_perm_invariant_without_ties _ _ (by decide) (by decide)


/-! ### C8: usage count and success rate -/

theorem execLoop_metadata (env : Env) :
    ∀ (acts : List Action) (p : Path) (i : Nat) (s : BrainSt),
      ((execLoop env p i acts s).1.2).metadata = p.metadata := by
  intro acts
  induction acts with
  | nil => intro p i s; rfl
  | cons a rest ih =>
      intro p i s
      simp only [execLoop]
      split
      · split
        · exact ih _ _ _
        · rfl
      · split
        · split
          · exact ih _ _ _
          · rfl
        · rfl

theorem executePath_metadata (env : Env) (p : Path) (s : BrainSt) :
    ((executePath env p s).1.2).metadata =
      updatePathMeta p.metadata (executePath env p s).1.1 := by
  unfold executePath
  dsimp only
  rw [execLoop_metadata]

theorem updatePathMeta_spec (m : PathMeta) (b : Bool) :
    (updatePathMeta m b).usageCount = m.usageCount + 1 ∧
    (updatePathMeta m b).successRate =
      (m.successRate * m.usageCount + (if b then 1 else 0)) /
        ((m.usageCount : Rat) + 1) := by
  have hmk : (mkRat (m.usageCount + 1 : Nat) 1) = ((m.usageCount : Rat) + 1) := by
    rw [Rat.mkRat_one]
    push_cast
    ring
  unfold updatePathMeta
  refine ⟨rfl, ?_⟩
  cases b with
  | false =>
      simp only [Bool.false_eq_true, if_false]
      rw [qDiv_eq, qMul_eq, qSub_eq, hmk]
      ring_nf
  | true =>
      simp only [if_true]
      rw [qDiv_eq, qAdd_eq, qMul_eq, qSub_eq, hmk]
      ring_nf

theorem execTimes_spec (env : Env) :
    ∀ (n : Nat) (p : Path) (s : BrainSt),
      ((execTimes env n p s).1.2).metadata.usageCount =
        p.metadata.usageCount + n ∧
      ((execTimes env n p s).1.2).metadata.successRate *
          ((p.metadata.usageCount : Rat) + n) =
        p.metadata.successRate * p.metadata.usageCount +
          (((execTimes env n p s).1.1.countP id : Nat) : Rat) := by
  intro n
  induction n with
  | zero =>
      intro p s
      constructor
      · rfl
      · simp [execTimes]
  | succ k ih =>
      intro p s
      obtain ⟨hu, hr⟩ := ih (executePath env p s).1.2 (executePath env p s).2
      have hmeta := executePath_metadata env p s
      obtain ⟨hsu, hsr⟩ := updatePathMeta_spec p.metadata (executePath env p s).1.1
      rw [hmeta] at hu hr
      rw [hsu] at hu
      rw [hsu, hsr] at hr
      have hne : ((p.metadata.usageCount : Rat) + 1) ≠ 0 := by positivity
      simp only [execTimes]
      constructor
      · rw [hu]
        omega
      · rw [List.countP_cons]
        push_cast at hr ⊢
        have hcancel :
            (p.metadata.successRate * p.metadata.usageCount +
                (if (executePath env p s).1.1 then (1 : Rat) else 0)) /
                ((p.metadata.usageCount : Rat) + 1) *
                ((p.metadata.usageCount : Rat) + 1) =
              p.metadata.successRate * p.metadata.usageCount +
                (if (executePath env p s).1.1 then (1 : Rat) else 0) :=
          div_mul_cancel₀ _ hne
        cases hb : (executePath env p s).1.1 with
        | false =>
            rw [hb] at hr hcancel
            simp only [Bool.false_eq_true, if_false, add_zero, id_eq] at hr hcancel ⊢
            have hx : ((p.metadata.usageCount : Rat) + ((k : Rat) + 1)) =
                ((p.metadata.usageCount : Rat) + 1 + (k : Rat)) := by ring
            rw [hx]
            linarith [hr, hcancel]
        | true =>
            rw [hb] at hr hcancel
            simp only [if_true, id_eq] at hr hcancel ⊢
            have hx : ((p.metadata.usageCount : Rat) + ((k : Rat) + 1)) =
                ((p.metadata.usageCount : Rat) + 1 + (k : Rat)) := by ring
            rw [hx]
            linarith [hr, hcancel]

/-- C8: starting from a freshly learned path (`usageCount = 0`,
`successRate = 0`), `n` sequential `executePath` runs leave
`usageCount = n` (one increment per attempt) and `successRate` equal to
the mean of the `n` boolean outcomes. -/
theorem C8_successRate_is_outcome_mean (env : Env) (p : Path) (s : BrainSt)
    (n : Nat) (h0 : p.metadata.usageCount = 0)
    (h1 : p.metadata.successRate = 0) :
    ((execTimes env n p s).1.2).metadata.usageCount = n ∧
    ((execTimes env n p s).1.2).metadata.successRate =
      (((execTimes env n p s).1.1.countP id : Nat) : Rat) / n := by
  obtain ⟨hu, hr⟩ := execTimes_spec env n p s
  rw [h0] at hu hr
  rw [h1] at hr
  refine ⟨by omega, ?_⟩
  rcases Nat.eq_zero_or_pos n with hn | hn
  · subst hn
    simp only [execTimes]
    rw [h1]
    simp
  · have hne : ((n : Rat)) ≠ 0 := by positivity
    rw [eq_div_iff hne]
    simpa using hr

/-- C8 (witness): the mean theorem applied to a concrete fresh path, run
twice. -/
theorem C8_successRate_is_outcome_mean_witness :
    (mkPath "w8" nidA nidB).metadata.usageCount = 0 ∧
    (mkPath "w8" nidA nidB).metadata.successRate = 0 ∧
    ((execTimes env0 2 (mkPath "w8" nidA nidB) st0).1.2).metadata.usageCount = 2 ∧
    ((execTimes env0 2 (mkPath "w8" nidA nidB) st0).1.2).metadata.successRate =
      (((execTimes env0 2 (mkPath "w8" nidA nidB) st0).1.1.countP id : Nat) : Rat) /
        2 := by
  obtain ⟨hu, hr⟩ :=
    C8_successRate_is_outcome_mean env0 (mkPath "w8" nidA nidB) st0 2 rfl rfl
  exact ⟨rfl, rfl, hu, by simpa using hr⟩


/-! ### C10: the `::` key encoding -/

theorem containsSeq_cons_decomp (c : Char) (rest needle : List Char)
    (h : containsSeq (c :: rest) needle = false) :
    startsWithSeq (c :: rest) needle = false ∧ containsSeq rest needle = false := by
  rw [containsSeq] at h
  exact ⟨(Bool.or_eq_false_iff.mp h).1, (Bool.or_eq_false_iff.mp h).2⟩

theorem jsSplit2_no_sep :
    ∀ l : List Char, containsSeq l [':', ':'] = false → jsSplit2 l = [l] := by
  intro l
  induction l with
  | nil => intro h; rfl
  | cons c rest ih =>
      intro h
      obtain ⟨hsw, hrest⟩ := containsSeq_cons_decomp c rest _ h
      rw [jsSplit2.eq_def]
      split
      · simp_all
      · rename_i rest1 heq
        injection heq with hc htl
        subst hc
        subst htl
        simp [startsWithSeq] at hsw
      · rename_i heq
        obtain ⟨rfl, rfl⟩ := heq
        rw [ih hrest]

theorem jsSplit2_sep_append :
    ∀ pn sh : List Char, containsSeq pn [':', ':'] = false →
      pn.getLast? ≠ some ':' → containsSeq sh [':', ':'] = false →
      jsSplit2 (pn ++ ':' :: ':' :: sh) = [pn, sh] := by
  intro pn
  induction pn with
  | nil =>
      intro sh _ _ h3
      simp only [List.nil_append]
      rw [show jsSplit2 (':' :: ':' :: sh) = [] :: jsSplit2 sh from rfl,
        jsSplit2_no_sep sh h3]
  | cons c rest ih =>
      intro sh h1 h2 h3
      obtain ⟨hsw, hrest⟩ := containsSeq_cons_decomp c rest _ h1
      have hlast : rest.getLast? ≠ some ':' ∨ rest = [] := by
        cases hr : rest with
        | nil => exact Or.inr rfl
        | cons c2 rest2 =>
            left
            rw [hr] at h2
            rwa [List.getLast?_cons_cons] at h2
      simp only [List.cons_append]
      rw [jsSplit2.eq_def]
      split
      · simp_all
      · rename_i rest1 heq
        injection heq with hc htl
        subst hc
        cases hr : rest with
        | nil =>
            rw [hr] at h2
            simp at h2
        | cons c2 rest2 =>
            rw [hr] at htl hsw
            simp only [List.cons_append] at htl
            injection htl with hc2 _
            simp [startsWithSeq, hc2] at hsw
      · rename_i heq
        obtain ⟨rfl, rfl⟩ := heq
        have hlast2 : rest.getLast? ≠ some ':' := by
          rcases hlast with h | h
          · exact h
          · rw [h]
            simp
        rw [ih sh hrest hlast2 h3]

/-- C10 (amended): `keyToNodeId` splits the key at every occurrence of
`"::"` and keeps only the first two fields, so the round trip
`keyToNodeId (nodeIdToKey id) = id` holds whenever neither component
contains `"::"` and `programName` does not end in `':'` (then the
encoder's separator is the only split point); and distinct NodeIds whose
`programName` contains `"::"` can collide on the same key, denoting the
same graph entry. -/
theorem C10_key_roundtrip_and_collision :
    (∀ nid : NodeId, jsIncludes nid.programName "::" = false →
      jsIncludes nid.stateHash "::" = false →
      nid.programName.data.getLast? ≠ some ':' →
      keyToNodeId (nodeIdToKey nid) = ⟨nid.programName, some nid.stateHash⟩) ∧
    nodeIdToKey ⟨"a::b::c", "d"⟩ = nodeIdToKey ⟨"a::b", "c::d"⟩ ∧
    (⟨"a::b::c", "d"⟩ : NodeId) ≠ ⟨"a::b", "c::d"⟩ ∧
    jsIncludes "a::b::c" "::" = true ∧ jsIncludes "a::b" "::" = true := by
  refine ⟨?_, by decide, by decide, by decide, by decide⟩
  intro nid h1 h2 h3
  obtain ⟨⟨pd⟩, ⟨sd⟩⟩ := nid
  unfold jsIncludes at h1 h2
  simp only [show ("::" : String).data = [':', ':'] from rfl] at h1 h2
  unfold keyToNodeId nodeIdToKey
  have hdata : ((String.mk pd ++ "::" ++ String.mk sd)).data =
      pd ++ ':' :: ':' :: sd := by
    simp [String.data_append]
  rw [hdata, jsSplit2_sep_append pd sd h1 h3 h2]

/-- C10 (witness): the round-trip half applied to a separator-free
concrete NodeId. -/
theorem C10_key_roundtrip_and_collision_witness :
    jsIncludes "Finder" "::" = false ∧ jsIncludes "abc123" "::" = false ∧
    keyToNodeId (nodeIdToKey ⟨"Finder", "abc123"⟩) = ⟨"Finder", some "abc123"⟩ := by
  refine ⟨by decide, by decide, ?_⟩
  exact C10_key_roundtrip_and_collision.1 ⟨"Finder", "abc123"⟩ (by decide)
    (by decide) (by decide)


/-! ### C1: every `navigateTo` performs exactly one path synthesis -/

theorem nLearn_takeCapture (env : Env) (s : BrainSt) :
    (takeCapture env s).2.nLearn = s.nLearn := rfl

theorem nLearn_tryOcr (env : Env) (s : BrainSt) :
    (tryOcr env s).2.nLearn = s.nLearn := by
  unfold tryOcr
  split_ifs <;> rfl

theorem nLearn_getIdentify (env : Env) (s : BrainSt) :
    (getIdentify env s).2.nLearn = s.nLearn := rfl

theorem nLearn_getProgramName (env : Env) (s : BrainSt) :
    (getProgramName env s).2.nLearn = s.nLearn := rfl

theorem nLearn_getUuid (env : Env) (s : BrainSt) :
    (getUuid env s).2.nLearn = s.nLearn := rfl

theorem nLearn_saveToStorage (g : NavigationGraph) (s : BrainSt) :
    (saveToStorage g s).nLearn = s.nLearn := rfl

theorem nLearn_storageLoad (s : BrainSt) :
    (storageLoad s).2.nLearn = s.nLearn := by
  unfold storageLoad
  cases s.graph <;> rfl

theorem nLearn_storageAddPath (p : Path) (s : BrainSt) :
    (storageAddPath p s).nLearn = s.nLearn := by
  unfold storageAddPath
  rw [nLearn_saveToStorage, nLearn_storageLoad]

theorem nLearn_storageAddNode (node : Node) (s : BrainSt) :
    (storageAddNode node s).nLearn = s.nLearn := by
  unfold storageAddNode
  rw [nLearn_saveToStorage, nLearn_storageLoad]

theorem nLearn_storageGetNode (nid : NodeId) (s : BrainSt) :
    (storageGetNode nid s).2.nLearn = s.nLearn := by
  unfold storageGetNode
  rw [nLearn_storageLoad]

theorem nLearn_setCurrentNodeId (nid : NodeId) (s : BrainSt) :
    (setCurrentNodeId nid s).nLearn = s.nLearn := rfl

theorem nLearn_updateShadowDOM (env : Env) (nid : NodeId) (s : BrainSt) :
    (updateShadowDOM env nid s).nLearn = s.nLearn := by
  unfold updateShadowDOM
  dsimp only
  rw [nLearn_getIdentify, nLearn_tryOcr, nLearn_takeCapture]

theorem nLearn_identifyCurrentNode (env : Env) (s : BrainSt) :
    (identifyCurrentNode env s).2.nLearn = s.nLearn := by
  unfold identifyCurrentNode
  dsimp only
  rw [nLearn_updateShadowDOM, nLearn_getIdentify, nLearn_getProgramName,
    nLearn_tryOcr, nLearn_takeCapture]

theorem nLearn_executeAction (env : Env) (action : Action) (s : BrainSt) :
    (executeAction env action s).2.nLearn = s.nLearn := by
  unfold executeAction
  repeat' ((try dsimp only); split)
  all_goals rfl

theorem nLearn_verifyActionResult (env : Env) (path : Path) (i : Nat)
    (s : BrainSt) : (verifyActionResult env path i s).2.nLearn = s.nLearn := by
  unfold verifyActionResult verifyVlmStage
  repeat' ((try dsimp only); split)
  all_goals rfl

theorem nLearn_execLoop (env : Env) :
    ∀ (acts : List Action) (p : Path) (i : Nat) (s : BrainSt),
      (execLoop env p i acts s).2.nLearn = s.nLearn := by
  intro acts
  induction acts with
  | nil => intros; rfl
  | cons a rest ih =>
      intro p i s
      simp only [execLoop]
      split
      · split
        · rw [ih, nLearn_verifyActionResult, nLearn_updateShadowDOM,
            nLearn_executeAction]
        · rw [nLearn_verifyActionResult, nLearn_updateShadowDOM,
            nLearn_executeAction]
      · split
        · split
          · rw [ih, nLearn_executeAction, nLearn_executeAction]
          · rw [nLearn_executeAction, nLearn_executeAction]
        · rw [nLearn_executeAction]

theorem nLearn_executePath (env : Env) (p : Path) (s : BrainSt) :
    (executePath env p s).2.nLearn = s.nLearn := by
  unfold executePath
  dsimp only
  rw [nLearn_storageAddPath, nLearn_execLoop]

theorem nLearn_addNode (nid : NodeId) (meta : Option NodeMetaArg)
    (s : BrainSt) : (addNode nid meta s).2.nLearn = s.nLearn := by
  unfold addNode
  repeat' ((try dsimp only); split)
  all_goals first
    | rfl
    | rw [nLearn_setCurrentNodeId, nLearn_storageAddNode, nLearn_storageGetNode]

theorem nLearn_assignActionIds (env : Env) :
    ∀ (l : List (ActionData × String)) (s : BrainSt),
      (assignActionIds env l s).2.nLearn = s.nLearn := by
  intro l
  induction l with
  | nil => intros; rfl
  | cons dd rest ih =>
      intro s
      simp only [assignActionIds]
      rw [ih, nLearn_getUuid]

theorem nLearn_learnPath (env : Env) (s : BrainSt) (g : NavigationGraph)
    (nid : NodeId) (hg : s.graph = some g) (hc : g.currentNodeId = some nid) :
    (learnPath env s).2.nLearn = s.nLearn + 1 := by
  unfold learnPath
  rw [hg]
  simp only [hc]
  have hget : ∀ s1 : BrainSt, (getLearn env s1).2.nLearn = s1.nLearn + 1 := fun _ => rfl
  split
  · rw [hget, nLearn_tryOcr, nLearn_takeCapture]
  · dsimp only
    rw [nLearn_getUuid, nLearn_assignActionIds, hget, nLearn_tryOcr,
      nLearn_takeCapture]

/-- C1 (amended): `navigateTo` never replays a stored Path — every call
with an initialized graph and a recorded current node invokes the
path-synthesis VLM (`learnNavigationPath`) exactly once, whether or not a
Path to the target is already persisted; hence two calls with the same
target perform two synthesis invocations. -/
theorem C1_navigateTo_always_synthesizes (env : Env) (s : BrainSt)
    (g : NavigationGraph) (nid : NodeId) (hg : s.graph = some g)
    (hc : g.currentNodeId = some nid) :
    (navigateTo env s).2.nLearn = s.nLearn + 1 := by
  unfold navigateTo
  rw [hg]
  dsimp only
  cases hlp : (learnPath env s).1 with
  | none =>
      dsimp only
      exact nLearn_learnPath env s g nid hg hc
  | some path =>
      dsimp only
      split
      · cases hid : (identifyCurrentNode env (executePath env path
            (learnPath env s).2).2).1 with
        | none =>
            dsimp only
            rw [nLearn_identifyCurrentNode, nLearn_executePath]
            exact nLearn_learnPath env s g nid hg hc
        | some newNodeId =>
            dsimp only
            split
            · rw [nLearn_addNode, nLearn_storageAddPath,
                nLearn_identifyCurrentNode, nLearn_executePath]
              exact nLearn_learnPath env s g nid hg hc
            · rw [nLearn_addNode, nLearn_storageAddPath,
                nLearn_identifyCurrentNode, nLearn_executePath]
              exact nLearn_learnPath env s g nid hg hc
      · rw [nLearn_executePath]
        exact nLearn_learnPath env s g nid hg hc

/-- C1 (witness): the exactly-one-synthesis theorem applied to the booted
concrete state. -/
theorem C1_navigateTo_always_synthesizes_witness :
    navSetup.graph = some (navSetup.graph.getD (createEmptyGraph 0)) ∧
    (navSetup.graph.getD (createEmptyGraph 0)).currentNodeId =
      some ⟨"Settings", "e3b0c44298fc1c14"⟩ ∧
    (navigateTo env0 navSetup).2.nLearn = navSetup.nLearn + 1 := by
  refine ⟨by decide, by decide, ?_⟩
  exact C1_navigateTo_always_synthesizes env0 navSetup
    (navSetup.graph.getD (createEmptyGraph 0)) ⟨"Settings", "e3b0c44298fc1c14"⟩
    (by decide) (by decide)

end GAI

